import Mathlib

/-!
Shallow embedding of the backport orchestration engine
(`src/cli/cliService.ts` and `src/lib/github.ts`).

Pure functions of the source are translated as Lean functions on `String`
(JS strings are modelled as sequences of characters; the string helpers
below reproduce the JS semantics of `String.prototype.replace` with a
string pattern, which replaces only the first occurrence, of
`String.prototype.slice(0, n)` and of `String.prototype.includes`).

The effectful pipeline (`doBackportVersions` / `doBackportVersion` /
`cherrypickAndConfirm` / `confirmResolvedRecursive`) is translated as a
deterministic interpreter over explicit oracles: the results of the git
and GitHub collaborator calls are inputs, the answers of the interactive
prompts are consumed from explicit lists, and every collaborator call and
every user-visible report is recorded in an event trace.  Fallible steps
return `Except JsError`, and the recursive confirmation loop returns
`none` when its answer lists are exhausted (the run would still be
waiting for operator input).
-/

/-- A JavaScript error value as the engine observes it: a `name` used for
classification in `handleErrors`, a `message`, and an optional `cmd`
property (set by the child-process layer on command failures, absent on
other errors). -/
structure JsError where
  name : String
  message : String
  cmd : Option String
deriving DecidableEq, Repr

/-- `new HandledError(message)` from `src/lib/errors`: its defining
property, relied on by `handleErrors`, is `name === "HandledError"`.
Modelled from the spec: the `HandledError` class itself is outside
`src/`, but `cliService.ts` constructs it with a message and
`handleErrors` dispatches on `e.name === "HandledError"`. -/
def HandledError (message : String) : JsError :=
  { name := "HandledError", message := message, cmd := none }

/-- The TypeError raised by the JavaScript runtime when
`e.cmd.includes(...)` is evaluated on an error `e` whose `cmd` property
is `undefined`. -/
def jsTypeErrorCmdUndefined : JsError :=
  { name := "TypeError", message := "Cannot read property includes of undefined", cmd := none }

/-- A commit as consumed by the engine: full `sha`, first-line `message`,
and an optional pull-request number. -/
structure Commit where
  sha : String
  message : String
  pullNumber : Option Nat
deriving DecidableEq, Repr

/-- The result of `github.createPullRequest`. -/
structure PullRequest where
  html_url : String
  number : Nat
deriving DecidableEq, Repr

/-- The payload built by `getPullRequestPayload`. -/
structure GithubPullRequestPayload where
  title : String
  body : String
  head : String
  base : String
deriving DecidableEq, Repr

/-- JavaScript truthiness of the `pullNumber` field (a number or
`undefined`): `undefined` and `0` are falsy, every other number is
truthy.  `cliService.ts` tests `commit.pullNumber ? ... : ...`. -/
def truthyNat : Option Nat → Bool
  | none => false
  | some n => n != 0

/-- `a` starts with `b` (character lists). -/
def startsWithL : List Char → List Char → Bool
  | _, [] => true
  | [], _ :: _ => false
  | a :: as, b :: bs => a = b && startsWithL as bs

/-- JS `s.includes(pat)`: `pat` occurs as a contiguous substring of `s`. -/
def jsIncludes (s pat : String) : Bool :=
  (List.range (s.toList.length + 1)).any fun i => startsWithL (s.toList.drop i) pat.toList

/-- JS `s.replace(pat, rep)` with a string pattern: replaces only the
first (leftmost) occurrence of `pat`, and returns `s` unchanged when
`pat` does not occur. -/
def replaceFirstL (pat rep : List Char) : List Char → List Char
  | [] => if startsWithL [] pat then rep else []
  | a :: as =>
    if startsWithL (a :: as) pat then rep ++ (a :: as).drop pat.length
    else a :: replaceFirstL pat rep as

/-- String wrapper for `replaceFirstL`. -/
def jsReplaceFirst (s pat rep : String) : String :=
  (replaceFirstL pat.toList rep.toList s.toList).asString

/-- JS `s.slice(0, n)`: the first `n` characters of `s`. -/
def jsSliceTo (s : String) (n : Nat) : String :=
  (s.toList.take n).asString

/-- Number of (possibly overlapping) occurrences of `pat` in `s`; used to
state the duplicate-reference claims.  For the patterns of interest,
such as `(#42)`, occurrences cannot overlap, so this is the plain
occurrence count. -/
def countOccur (pat s : String) : Nat :=
  (List.range (s.toList.length + 1)).countP fun i => startsWithL (s.toList.drop i) pat.toList

/-- `getShortSha` (`cliService.ts:229`): `commit.sha.slice(0, 7)`. -/
def getShortSha (commit : Commit) : String :=
  jsSliceTo commit.sha 7

/-- `getReferenceLong` (`cliService.ts:233`):
`commit.pullNumber ? "#" + pullNumber : getShortSha(commit)`. -/
def getReferenceLong (commit : Commit) : String :=
  match commit.pullNumber with
  | some n => if n != 0 then "#" ++ toString n else getShortSha commit
  | none => getShortSha commit

/-- `getReferenceShort` (`cliService.ts:237`):
`commit.pullNumber ? "pr-" + pullNumber : "commit-" + getShortSha(commit)`. -/
def getReferenceShort (commit : Commit) : String :=
  match commit.pullNumber with
  | some n => if n != 0 then "pr-" ++ toString n else "commit-" ++ getShortSha commit
  | none => "commit-" ++ getShortSha commit

/-- `getFeatureBranchName` (`cliService.ts:221`): join the short
references with `_`, slice to 200 characters, and embed in
`backport/<baseBranch>/<refValues>`. -/
def getFeatureBranchName (baseBranch : String) (commits : List Commit) : String :=
  "backport/" ++ baseBranch ++ "/" ++
    jsSliceTo (String.intercalate "_" (commits.map getReferenceShort)) 200

/-- `getPullRequestTitle` (`cliService.ts:281`): join the commit messages
with `" | "`, slice to 200 characters, and put `[<baseBranch>] ` in
front. -/
def getPullRequestTitle (baseBranch : String) (commits : List Commit) : String :=
  "[" ++ baseBranch ++ "] " ++
    jsSliceTo (String.intercalate " | " (commits.map Commit.message)) 200

/-- One bullet of the pull-request body (`cliService.ts:297`):
`" - " + message.replace("(" + ref + ")", "") + " (" + ref + ")"`. -/
def prCommitRef (commit : Commit) : String :=
  " - " ++ jsReplaceFirst commit.message ("(" ++ getReferenceLong commit ++ ")") "" ++
    " (" ++ getReferenceLong commit ++ ")"

/-- `getPullRequestPayload` (`cliService.ts:290`). -/
def getPullRequestPayload (baseBranch : String) (commits : List Commit)
    (username : String) : GithubPullRequestPayload :=
  { title := getPullRequestTitle baseBranch commits
    body := "Backports the following commits to " ++ baseBranch ++ ":\n" ++
      String.intercalate "\n" (commits.map prCommitRef)
    head := username ++ ":" ++ getFeatureBranchName baseBranch commits
    base := baseBranch }

/-- One observable step of a run: a collaborator call or a user-visible
report.  `owner` and `repoName` are fixed throughout a run and are
absorbed into the oracle environment, so the events record only the
varying arguments. -/
inductive Event where
  | resetBranch
  | createAndCheckoutBranch (base feature : String)
  | cherrypickCall (sha : String)
  | confirmPrompt
  | dirtyCheck
  | pushBranch (username feature : String)
  | createPullRequestCall (payload : GithubPullRequestPayload)
  | addLabelsCall (labels : List String)
  | logBackporting (refs base : String)
  | logView (url : String)
  | reportHandled (msg : String)
  | reportUnexpected (name msg : String)
deriving DecidableEq, Repr

/-- Remaining answers of the interactive prompts: the yes/no answers
`confirmConflictResolved` will return, and the values `isIndexDirty`
will return, each consumed front to back. -/
structure PromptState where
  confirms : List Bool
  dirties : List Bool
deriving DecidableEq, Repr

/-- The outcome of a fallible interpreted step: the events it emitted,
the prompt answers left over, and its result.  `none` means the step ran
out of scripted prompt answers (the run would still be blocked on
operator input). -/
abbrev StepResult (α : Type) := Option (List Event × PromptState × Except JsError α)

/-- Sequence two interpreted steps: on success of the first, run the
continuation on its value and the remaining prompt answers, prepending
the first step's events; a failure or answer exhaustion stops the
sequence. -/
def stepThen (r : StepResult α) (k : α → PromptState → StepResult β) : StepResult β :=
  match r with
  | none => none
  | some (evs, st, Except.error e) => some (evs, st, Except.error e)
  | some (evs, st, Except.ok a) =>
    match k a st with
    | none => none
    | some (evs2, st2, res) => some (evs ++ evs2, st2, res)

/-- `confirmResolvedRecursive` (`cliService.ts:269`): ask
`confirmConflictResolved()`; a `false` answer throws
`new HandledError("Application was aborted.")`; on `true`, check
`isIndexDirty` and recurse while it reports dirty. -/
def confirmResolvedRecursive : List Bool → List Bool → StepResult Unit
  | [], _ => none
  | c :: cs, ds =>
    if !c then
      some ([Event.confirmPrompt], ⟨cs, ds⟩, Except.error (HandledError "Application was aborted."))
    else
      match ds with
      | [] => none
      | d :: ds2 =>
        if d then
          match confirmResolvedRecursive cs ds2 with
          | none => none
          | some (evs, st, res) =>
            some (Event.confirmPrompt :: Event.dirtyCheck :: evs, st, res)
        else
          some ([Event.confirmPrompt, Event.dirtyCheck], ⟨cs, ds2⟩, Except.ok ())

/-- `cherrypickAndConfirm` (`cliService.ts:243`): run the cherry-pick;
on failure, evaluate `e.cmd.includes("git cherry-pick")` — which itself
throws a TypeError when `e.cmd` is absent —, rethrow non-conflict
errors unchanged, and enter the confirmation loop on a conflict.  The
cherry-pick outcome per sha is supplied by the oracle `cherry`. -/
def cherrypickAndConfirm (cherry : String → Except JsError Unit) (sha : String)
    (cs ds : List Bool) : StepResult Unit :=
  match cherry sha with
  | Except.ok _ => some ([Event.cherrypickCall sha], ⟨cs, ds⟩, Except.ok ())
  | Except.error e =>
    match e.cmd with
    | none =>
      some ([Event.cherrypickCall sha], ⟨cs, ds⟩, Except.error jsTypeErrorCmdUndefined)
    | some cmd =>
      if jsIncludes cmd "git cherry-pick" then
        match confirmResolvedRecursive cs ds with
        | none => none
        | some (evs, st, res) => some (Event.cherrypickCall sha :: evs, st, res)
      else
        some ([Event.cherrypickCall sha], ⟨cs, ds⟩, Except.error e)

/-- Oracle environment for one branch pipeline: the outcomes of the git
and GitHub collaborator calls for this (owner, repoName, branch) run. -/
structure PipelineEnv where
  cherry : String → Except JsError Unit
  resetResult : Except JsError Unit
  checkoutResult : Except JsError Unit
  pushResult : Except JsError Unit
  createPRResult : Except JsError PullRequest
  addLabelsResult : Except JsError Unit

/-- `sequentially(commits, commit => cherrypickAndConfirm(...))`
(`cliService.ts:85` with `cliService.ts:214`): the commits are handled
one at a time, in list order, and a rejection stops the chain — later
handlers are never invoked. -/
def sequentiallyCherrypick (env : PipelineEnv) :
    List Commit → List Bool → List Bool → StepResult Unit
  | [], cs, ds => some ([], ⟨cs, ds⟩, Except.ok ())
  | c :: rest, cs, ds =>
    stepThen (cherrypickAndConfirm env.cherry c.sha cs ds) fun _ st =>
      sequentiallyCherrypick env rest st.confirms st.dirties

/-- `doBackportVersion` (`cliService.ts:68`): log, reset the mirror,
create and check out the feature branch, cherry-pick every commit in
order, push, create the pull request, and attach labels when some were
requested.  Every failure aborts the remaining steps. -/
def doBackportVersion (env : PipelineEnv) (commits : List Commit)
    (baseBranch username : String) (labels : List String)
    (cs ds : List Bool) : StepResult PullRequest :=
  stepThen (some ([Event.logBackporting (String.intercalate ", " (commits.map getReferenceLong)) baseBranch],
      ⟨cs, ds⟩, Except.ok ())) fun (_ : Unit) st =>
  stepThen (some ([Event.resetBranch], st, env.resetResult)) fun _ st =>
  stepThen (some ([Event.createAndCheckoutBranch baseBranch (getFeatureBranchName baseBranch commits)], st,
      env.checkoutResult)) fun _ st =>
  stepThen (sequentiallyCherrypick env commits st.confirms st.dirties) fun _ st =>
  stepThen (some ([Event.pushBranch username (getFeatureBranchName baseBranch commits)], st,
      env.pushResult)) fun _ st =>
  stepThen (some ([Event.createPullRequestCall (getPullRequestPayload baseBranch commits username)], st,
      env.createPRResult)) fun pr st =>
  if labels.length > 0 then
    stepThen (some ([Event.addLabelsCall labels], st, env.addLabelsResult)) fun _ st =>
      some ([], st, Except.ok pr)
  else
    some ([], st, Except.ok pr)

/-- `handleErrors` (`cliService.ts:54`): a `HandledError` is reported by
message and swallowed; any other error is reported and rethrown. -/
def handleErrors (e : JsError) : List Event × Except JsError Unit :=
  if e.name = "HandledError" then
    ([Event.reportHandled e.message], Except.ok ())
  else
    ([Event.reportUnexpected e.name e.message], Except.error e)

/-- `doBackportVersions` (`cliService.ts:29`): run `doBackportVersion`
for each target branch in order; each attempt is wrapped in
`try { ... log the pull request url } catch (e) { handleErrors(e) }`,
so the run continues past a branch exactly when `handleErrors`
swallows its error.  The collaborator oracle may differ per branch
(`env` is branch-indexed); the prompt answers are shared across the
whole run. -/
def doBackportVersions (env : String → PipelineEnv) (commits : List Commit)
    (branches : List String) (username : String) (labels : List String)
    (cs ds : List Bool) : StepResult Unit :=
  match branches with
  | [] => some ([], ⟨cs, ds⟩, Except.ok ())
  | b :: rest =>
    match doBackportVersion (env b) commits b username labels cs ds with
    | none => none
    | some (evs, st, Except.ok pr) =>
      match doBackportVersions env commits rest username labels st.confirms st.dirties with
      | none => none
      | some (evs2, st2, res) =>
        some (evs ++ [Event.logView pr.html_url] ++ evs2, st2, res)
    | some (evs, st, Except.error e) =>
      match handleErrors e with
      | (hevs, Except.ok _) =>
        match doBackportVersions env commits rest username labels st.confirms st.dirties with
        | none => none
        | some (evs2, st2, res) => some (evs ++ hevs ++ evs2, st2, res)
      | (hevs, Except.error e2) => some (evs ++ hevs, st, Except.error e2)

/-- A GitHub API call failure as `getError` (`src/lib/github.ts:177`)
observes it: the thrown error value itself, the structured error body
`e.response.data` when the response carried one (modelled as a flat list
of string fields), and the request url `e.config.url`. -/
structure GithubApiError where
  err : JsError
  responseData : Option (List (String × String))
  configUrl : String
deriving DecidableEq, Repr

/-- `JSON.stringify({...data, axiosUrl: url}, null, 4)` for a flat
string-valued body: the body fields followed by the `axiosUrl` field. -/
def jsonStringifyWithUrl (data : List (String × String)) (url : String) : String :=
  "\x7b\n" ++
    String.join (data.map fun kv => "    \"" ++ kv.1 ++ "\": \"" ++ kv.2 ++ "\",\n") ++
    ("    \"axiosUrl\": \"" ++ (url ++ "\"\n\x7d"))

/-- `getError` (`src/lib/github.ts:177`): when the API response carried
a structured error body, wrap it — together with the request url — into
a `HandledError`; otherwise return the original error unchanged. -/
def getError (e : GithubApiError) : JsError :=
  match e.responseData with
  | some data => HandledError (jsonStringifyWithUrl data e.configUrl)
  | none => e.err

instance {ε α : Type} [DecidableEq ε] [DecidableEq α] : DecidableEq (Except ε α) := fun a b =>
  match a, b with
  | Except.ok x, Except.ok y =>
    if h : x = y then Decidable.isTrue (by rw [h])
    else Decidable.isFalse (by intro hc; cases hc; exact h rfl)
  | Except.error x, Except.error y =>
    if h : x = y then Decidable.isTrue (by rw [h])
    else Decidable.isFalse (by intro hc; cases hc; exact h rfl)
  | Except.ok _, Except.error _ => Decidable.isFalse (by intro hc; cases hc)
  | Except.error _, Except.ok _ => Decidable.isFalse (by intro hc; cases hc)

/-- The short reference as the claim words it: `#<pullNumber>` for every
commit whose pull number is present, else the 7-character sha short
form.  Spec-side definition, to be compared with `getReferenceLong`. -/
def referenceLongSpecPresence (commit : Commit) : String :=
  match commit.pullNumber with
  | some n => "#" ++ toString n
  | none => jsSliceTo commit.sha 7

/-- The short reference as the amended claim words it: `#<pullNumber>`
exactly when the pull number is present and nonzero (JS truthiness of a
number field), else the 7-character sha short form. -/
def referenceLongSpecTruthy (commit : Commit) : String :=
  match commit.pullNumber with
  | some n => if n = 0 then jsSliceTo commit.sha 7 else "#" ++ toString n
  | none => jsSliceTo commit.sha 7

/-- The branch-name slug as the claim words it: `pr-<pullNumber>` for
every commit whose pull number is present, else `commit-<7-char sha>`.
Spec-side definition, to be compared with `getReferenceShort`. -/
def slugSpecPresence (commit : Commit) : String :=
  match commit.pullNumber with
  | some n => "pr-" ++ toString n
  | none => "commit-" ++ jsSliceTo commit.sha 7

/-- The branch-name slug as the amended claim words it: `pr-<pullNumber>`
exactly when the pull number is present and nonzero. -/
def slugSpecTruthy (commit : Commit) : String :=
  match commit.pullNumber with
  | some n => if n = 0 then "commit-" ++ jsSliceTo commit.sha 7 else "pr-" ++ toString n
  | none => "commit-" ++ jsSliceTo commit.sha 7

/-- The feature branch name as the claim words it:
`backport/<baseBranch>/<slugs joined with _ and truncated to 200>` with
the presence-based slugs.  Spec-side definition, to be compared with
`getFeatureBranchName`. -/
def featureBranchNameSpecPresence (baseBranch : String) (commits : List Commit) : String :=
  "backport/" ++ baseBranch ++ "/" ++
    jsSliceTo (String.intercalate "_" (commits.map slugSpecPresence)) 200

/-- The feature branch name as the amended claim words it, with the
truthiness-based slugs. -/
def featureBranchNameSpecTruthy (baseBranch : String) (commits : List Commit) : String :=
  "backport/" ++ baseBranch ++ "/" ++
    jsSliceTo (String.intercalate "_" (commits.map slugSpecTruthy)) 200

/-- A pull-request-body bullet as the amended claim words it: the commit
message with the first literal occurrence of `(<shortReference>)`
stripped, followed by ` (<shortReference>)`. -/
def bulletSpecFirstOccurrence (commit : Commit) : String :=
  " - " ++ jsReplaceFirst commit.message ("(" ++ referenceLongSpecTruthy commit ++ ")") "" ++
    " (" ++ referenceLongSpecTruthy commit ++ ")"

/-- The shas of the cherry-pick calls recorded in a trace, in order. -/
def cherryShas (evs : List Event) : List String :=
  evs.filterMap fun e =>
    match e with
    | Event.cherrypickCall sha => some sha
    | _ => none

/-- Events that belong to the push or pull-request-creation steps. -/
def isPushOrPREvent : Event → Bool
  | Event.pushBranch _ _ => true
  | Event.createPullRequestCall _ => true
  | Event.addLabelsCall _ => true
  | _ => false

/-- Commit used in the concrete scenarios. -/
def exCommit : Commit :=
  { sha := "abc1234def5678", message := "Fix bug (#10)", pullNumber := some 10 }

/-- Oracle in which every collaborator call succeeds and the created
pull request is `pr`. -/
def okEnv (pr : PullRequest) : PipelineEnv :=
  { cherry := fun _ => Except.ok ()
    resetResult := Except.ok ()
    checkoutResult := Except.ok ()
    pushResult := Except.ok ()
    createPRResult := Except.ok pr
    addLabelsResult := Except.ok () }

/-- The command failure produced by a conflicting `git cherry-pick`. -/
def conflictError (sha : String) : JsError :=
  { name := "Error", message := "Command failed", cmd := some ("git cherry-pick " ++ sha) }

/-- An error without a `cmd` property, e.g. a network failure. -/
def networkError : JsError :=
  { name := "Error", message := "connect ECONNREFUSED", cmd := none }

/-- Pull request created for the scenario branch `7.x`. -/
def prB : PullRequest := { html_url := "https://github.com/elastic/kibana/pull/200", number := 200 }

/-- Branch-indexed oracle: on `6.x` every cherry-pick reports a
conflict, on every other branch all calls succeed. -/
def exEnv : String → PipelineEnv := fun b =>
  if b = "6.x" then { okEnv prB with cherry := fun sha => Except.error (conflictError sha) }
  else okEnv prB

/-- A GitHub API call failure carrying a structured error body. -/
def apiErrEx : GithubApiError :=
  { err := { name := "Error", message := "Request failed with status code 422", cmd := none }
    responseData := some [("message", "Validation Failed")]
    configUrl := "https://api.github.com/repos/elastic/kibana/pulls" }

/-- A GitHub API call failure without a structured error body. -/
def apiErrNoBody : GithubApiError :=
  { err := networkError
    responseData := none
    configUrl := "https://api.github.com/repos/elastic/kibana/pulls" }

/-- A command failure originating from a command other than the
cherry-pick invocation. -/
def pushError : JsError :=
  { name := "Error", message := "Command failed", cmd := some "git push origin 7.x" }

/-- Branch-indexed oracle in which every cherry-pick fails with an
error that has no `cmd` property. -/
def exEnvNet : String → PipelineEnv := fun _ =>
  { okEnv prB with cherry := fun _ => Except.error networkError }

/-- The trace of the `6.x` branch attempt in the scenario `exEnv`,
`confirms = [false]`: the cherry-pick conflicts and the operator denies
the confirmation. -/
def exTraceA : List Event :=
  [Event.logBackporting "#10" "6.x",
   Event.resetBranch,
   Event.createAndCheckoutBranch "6.x" "backport/6.x/pr-10",
   Event.cherrypickCall "abc1234def5678",
   Event.confirmPrompt]

/-- The full trace of the two-branch scenario run
`doBackportVersions exEnv [exCommit] ["6.x", "7.x"] "sqren" [] [false] []`:
the `6.x` attempt is aborted by the operator and reported as handled,
then the `7.x` attempt runs to completion. -/
def exTrace : List Event :=
  exTraceA ++
  [Event.reportHandled "Application was aborted.",
   Event.logBackporting "#10" "7.x",
   Event.resetBranch,
   Event.createAndCheckoutBranch "7.x" "backport/7.x/pr-10",
   Event.cherrypickCall "abc1234def5678",
   Event.pushBranch "sqren" "backport/7.x/pr-10",
   Event.createPullRequestCall
     { title := "[7.x] Fix bug (#10)",
       body := "Backports the following commits to 7.x:\n - Fix bug  (#10)",
       head := "sqren:backport/7.x/pr-10",
       base := "7.x" },
   Event.logView "https://github.com/elastic/kibana/pull/200"]

/-! ### Helper lemmas -/

theorem scenario_featureBranchName :
    getFeatureBranchName "7.x" [{ sha := "abc1234def", message := "Fix bug (#10)", pullNumber := some 10 }] =
      "backport/7.x/pr-10" := by decide

theorem scenario_shortSha_fallback :
    getReferenceLong { sha := "deadbeefcafe", message := "m", pullNumber := none } =
      "deadbee" := by decide

theorem scenario_pullRequestBody :
    (getPullRequestPayload "7.x" [{ sha := "abc1234def", message := "Fix bug (#10)", pullNumber := some 10 }] "sqren").body =
      "Backports the following commits to 7.x:\n - Fix bug  (#10)" := by decide

theorem referenceLong_funeq : getReferenceLong = referenceLongSpecTruthy := by
  funext c
  match h : c.pullNumber with
  | none => simp [getReferenceLong, referenceLongSpecTruthy, h, getShortSha, jsSliceTo]
  | some n =>
    by_cases hn : n = 0 <;>
      simp [getReferenceLong, referenceLongSpecTruthy, h, hn, getShortSha, jsSliceTo, bne]

theorem referenceShort_funeq : getReferenceShort = slugSpecTruthy := by
  funext c
  match h : c.pullNumber with
  | none => simp [getReferenceShort, slugSpecTruthy, h, getShortSha, jsSliceTo]
  | some n =>
    by_cases hn : n = 0 <;>
      simp [getReferenceShort, slugSpecTruthy, h, hn, getShortSha, jsSliceTo, bne]

theorem jsSliceTo_length (s : String) (n : Nat) : (jsSliceTo s n).length = min n s.length := by
  have h1 : (jsSliceTo s n).length = (s.toList.take n).length := rfl
  rw [h1, List.length_take]
  rfl

theorem jsSliceTo_length_le (s : String) (n : Nat) : (jsSliceTo s n).length ≤ n := by
  rw [jsSliceTo_length]
  exact min_le_left _ _

theorem bullet_funeq : prCommitRef = bulletSpecFirstOccurrence := by
  funext c
  unfold prCommitRef bulletSpecFirstOccurrence
  rw [referenceLong_funeq]

/-! ### C7 -/

/-- C7: the claim states that every commit with a present pull number
gets short reference `#<pullNumber>`.  Counterexample: a present pull
number `0` is falsy in JavaScript, so `getReferenceLong` falls back to
the 7-character sha form instead of returning `#0`. -/
theorem claim_C7_counterexample :
    ({ sha := "deadbeefcafe0123", message := "m", pullNumber := some 0 } : Commit).pullNumber = some 0 ∧
    getReferenceLong { sha := "deadbeefcafe0123", message := "m", pullNumber := some 0 } = "deadbee" ∧
    referenceLongSpecPresence { sha := "deadbeefcafe0123", message := "m", pullNumber := some 0 } = "#0" ∧
    getReferenceLong { sha := "deadbeefcafe0123", message := "m", pullNumber := some 0 } ≠
      referenceLongSpecPresence { sha := "deadbeefcafe0123", message := "m", pullNumber := some 0 } := by
  decide

/-- C7 (amended): for every commit with a present and nonzero (truthy)
pull number the short reference is `#<pullNumber>`; for every other
commit (pull number absent or `0`) it is the 7-character prefix of the
sha, of length exactly 7 whenever the sha has at least 7 characters. -/
theorem claim_C7 :
    (∀ c : Commit, getReferenceLong c = referenceLongSpecTruthy c) ∧
    (∀ c : Commit, truthyNat c.pullNumber = false → getReferenceLong c = jsSliceTo c.sha 7) ∧
    (∀ c : Commit, truthyNat c.pullNumber = false → 7 ≤ c.sha.length →
      (getReferenceLong c).length = 7) := by
  have habs : ∀ c : Commit, truthyNat c.pullNumber = false →
      getReferenceLong c = jsSliceTo c.sha 7 := by
    intro c h
    match hp : c.pullNumber with
    | none => simp [getReferenceLong, hp, getShortSha, jsSliceTo]
    | some n =>
      rw [hp] at h
      simp [truthyNat] at h
      simp [getReferenceLong, hp, h, getShortSha, jsSliceTo]
  refine ⟨fun c => congrFun referenceLong_funeq c, habs, fun c h hlen => ?_⟩
  rw [habs c h, jsSliceTo_length]
  exact Nat.min_eq_left hlen

/-- Witness for C7 at a concrete commit without a pull number. -/
theorem claim_C7_witness :
    getReferenceLong { sha := "deadbeefcafe0123", message := "m", pullNumber := none } =
      jsSliceTo "deadbeefcafe0123" 7 ∧
    (getReferenceLong { sha := "deadbeefcafe0123", message := "m", pullNumber := none }).length = 7 :=
  ⟨claim_C7.2.1 _ (by decide), claim_C7.2.2 _ (by decide) (by decide)⟩

/-! ### C6 -/

/-- C6: the claim words the slugs as `pr-<pullNumber>` whenever the pull
number is present.  Counterexample: with a present pull number `0` the
code produces the `commit-<sha7>` slug, so the branch name differs from
the claimed one. -/
theorem claim_C6_counterexample :
    getFeatureBranchName "6.x" [{ sha := "deadbeefcafe0123", message := "m", pullNumber := some 0 }] =
      "backport/6.x/commit-deadbee" ∧
    featureBranchNameSpecPresence "6.x" [{ sha := "deadbeefcafe0123", message := "m", pullNumber := some 0 }] =
      "backport/6.x/pr-0" ∧
    getFeatureBranchName "6.x" [{ sha := "deadbeefcafe0123", message := "m", pullNumber := some 0 }] ≠
      featureBranchNameSpecPresence "6.x" [{ sha := "deadbeefcafe0123", message := "m", pullNumber := some 0 }] := by
  decide

/-- C6 (amended): for every base branch and non-empty commit list the
feature branch name is `backport/<baseBranch>/<slugs>` where the slugs
are `pr-<pullNumber>` for a present and nonzero (truthy) pull number and
`commit-<7-char sha>` otherwise, joined with `_` and truncated to 200
characters; the truncated segment never exceeds 200 characters, and the
function is deterministic. -/
theorem claim_C6 :
    ∀ (baseBranch : String) (commits : List Commit), commits ≠ [] →
      getFeatureBranchName baseBranch commits = featureBranchNameSpecTruthy baseBranch commits ∧
      (jsSliceTo (String.intercalate "_" (commits.map getReferenceShort)) 200).length ≤ 200 ∧
      (∀ (b2 : String) (c2 : List Commit), b2 = baseBranch → c2 = commits →
        getFeatureBranchName b2 c2 = getFeatureBranchName baseBranch commits) := by
  intro baseBranch commits _
  refine ⟨?_, jsSliceTo_length_le _ _, ?_⟩
  · unfold getFeatureBranchName featureBranchNameSpecTruthy
    rw [referenceShort_funeq]
  · intro b2 c2 hb hc
    rw [hb, hc]

/-- Witness for C6 at a concrete non-empty commit list. -/
theorem claim_C6_witness :
    getFeatureBranchName "7.x" [exCommit] = featureBranchNameSpecTruthy "7.x" [exCommit] ∧
    (jsSliceTo (String.intercalate "_" ([exCommit].map getReferenceShort)) 200).length ≤ 200 :=
  ⟨(claim_C6 "7.x" [exCommit] (by decide)).1, (claim_C6 "7.x" [exCommit] (by decide)).2.1⟩

/-! ### C5 -/

/-- C5: the claim states that any literal occurrence of the reference is
stripped and that the rendered body never contains a duplicated
parenthesized reference.  Counterexample: `String.replace` with a string
pattern strips only the first occurrence, so a message embedding `(#42)`
twice yields a bullet — and a body — containing `(#42)` twice. -/
theorem claim_C5_counterexample :
    countOccur "(#42)"
      (getPullRequestPayload "6.x"
        [{ sha := "sha1234", message := "Fix (#42) (#42)", pullNumber := some 42 }] "sqren").body = 2 ∧
    countOccur "(#42)"
      (prCommitRef { sha := "sha1234", message := "Fix (#42) (#42)", pullNumber := some 42 }) = 2 := by
  decide

/-- C5 (amended): each bullet of the pull-request body is the commit
message with the first literal occurrence of `(<shortReference>)`
stripped out and ` (<shortReference>)` appended; a message containing
`(#42)` exactly once, such as `Fix bug (#42)` with pull number 42,
yields a bullet containing `(#42)` exactly once, but messages embedding
the reference more than once can still yield duplicates. -/
theorem claim_C5 :
    (∀ (baseBranch : String) (commits : List Commit) (username : String),
      (getPullRequestPayload baseBranch commits username).body =
        "Backports the following commits to " ++ baseBranch ++ ":\n" ++
          String.intercalate "\n" (commits.map bulletSpecFirstOccurrence)) ∧
    countOccur "(#42)"
      (prCommitRef { sha := "sha1234", message := "Fix bug (#42)", pullNumber := some 42 }) = 1 := by
  constructor
  · intro baseBranch commits username
    unfold getPullRequestPayload
    rw [bullet_funeq]
  · decide

/-! ### Confirmation-loop lemmas -/

theorem loop_abort (cs ds : List Bool) :
    confirmResolvedRecursive (false :: cs) ds =
      some ([Event.confirmPrompt], ⟨cs, ds⟩, Except.error (HandledError "Application was aborted.")) := rfl

theorem loop_resolved (cs ds : List Bool) :
    confirmResolvedRecursive (true :: cs) (false :: ds) =
      some ([Event.confirmPrompt, Event.dirtyCheck], ⟨cs, ds⟩, Except.ok ()) := rfl

theorem loop_reprompt (cs ds : List Bool) :
    confirmResolvedRecursive (true :: cs) (true :: ds) =
      match confirmResolvedRecursive cs ds with
      | none => none
      | some (evs, st, r) => some (Event.confirmPrompt :: Event.dirtyCheck :: evs, st, r) := rfl

theorem loop_events : ∀ (cs ds : List Bool) evs st r,
    confirmResolvedRecursive cs ds = some (evs, st, r) →
    ∀ e ∈ evs, e = Event.confirmPrompt ∨ e = Event.dirtyCheck := by
  intro cs
  induction cs with
  | nil => intro ds evs st r h; exact absurd h (by simp [confirmResolvedRecursive])
  | cons c cs ih =>
    intro ds evs st r h
    cases c with
    | false =>
      rw [loop_abort] at h
      simp only [Option.some.injEq, Prod.mk.injEq] at h
      obtain ⟨he, -, -⟩ := h
      subst he
      intro e hmem
      simp only [List.mem_singleton] at hmem
      subst hmem
      exact Or.inl rfl
    | true =>
      cases ds with
      | nil => exact absurd h (by simp [confirmResolvedRecursive])
      | cons d ds2 =>
        cases d with
        | false =>
          rw [loop_resolved] at h
          simp only [Option.some.injEq, Prod.mk.injEq] at h
          obtain ⟨he, -, -⟩ := h
          subst he
          intro e hmem
          simp only [List.mem_cons, List.mem_singleton] at hmem
          rcases hmem with rfl | rfl | hmem
          · exact Or.inl rfl
          · exact Or.inr rfl
          · exact absurd hmem (List.not_mem_nil e)
        | true =>
          rw [loop_reprompt] at h
          cases heq : confirmResolvedRecursive cs ds2 with
          | none => rw [heq] at h; exact absurd h (by simp)
          | some t =>
            obtain ⟨evs', st', r'⟩ := t
            rw [heq] at h
            simp only [Option.some.injEq, Prod.mk.injEq] at h
            obtain ⟨he, -, -⟩ := h
            subst he
            intro e hmem
            simp only [List.mem_cons] at hmem
            rcases hmem with rfl | rfl | hmem
            · exact Or.inl rfl
            · exact Or.inr rfl
            · exact ih ds2 evs' st' r' heq e hmem

theorem loop_no_cherrypick (cs ds : List Bool) (evs : List Event) (st : PromptState)
    (r : Except JsError Unit) (sha : String)
    (h : confirmResolvedRecursive cs ds = some (evs, st, r)) :
    Event.cherrypickCall sha ∉ evs := by
  intro hmem
  rcases loop_events cs ds evs st r h _ hmem with he | he <;> exact Event.noConfusion he

theorem loop_terminates : ∀ (cs ds : List Bool),
    (∃ i, i < cs.length ∧ i < ds.length ∧ (cs.get? i = some false ∨ ds.get? i = some false)) →
    (confirmResolvedRecursive cs ds).isSome = true := by
  intro cs
  induction cs with
  | nil =>
    rintro ds ⟨i, hic, -, -⟩
    simp at hic
  | cons c cs ih =>
    rintro ds ⟨i, hic, hid, hor⟩
    cases ds with
    | nil => simp at hid
    | cons d ds2 =>
      cases c with
      | false => rw [loop_abort]; rfl
      | true =>
        cases d with
        | false => rw [loop_resolved]; rfl
        | true =>
          rw [loop_reprompt]
          cases i with
          | zero => simp at hor
          | succ j =>
            have hrec := ih ds2 ⟨j, by simpa using Nat.lt_of_succ_lt_succ hic,
              by simpa using Nat.lt_of_succ_lt_succ hid, by simpa using hor⟩
            cases heq : confirmResolvedRecursive cs ds2 with
            | none => rw [heq] at hrec; simp at hrec
            | some t => obtain ⟨evs, st, r⟩ := t; simp

theorem loop_success_iff : ∀ (cs ds : List Bool) evs st r,
    confirmResolvedRecursive cs ds = some (evs, st, r) →
    (r = Except.ok () ↔ ∃ i, i < cs.length ∧ i < ds.length ∧
      (∀ j, j < i → cs.get? j = some true ∧ ds.get? j = some true) ∧
      cs.get? i = some true ∧ ds.get? i = some false) := by
  intro cs
  induction cs with
  | nil => intro ds evs st r h; exact absurd h (by simp [confirmResolvedRecursive])
  | cons c cs ih =>
    intro ds evs st r h
    cases c with
    | false =>
      rw [loop_abort] at h
      simp only [Option.some.injEq, Prod.mk.injEq] at h
      obtain ⟨-, -, hr⟩ := h
      subst hr
      constructor
      · intro hok; exact absurd hok (by simp)
      · rintro ⟨i, -, -, hall, hci, -⟩
        cases i with
        | zero => simp at hci
        | succ j => have := (hall 0 (Nat.succ_pos j)).1; simp at this
    | true =>
      cases ds with
      | nil => exact absurd h (by simp [confirmResolvedRecursive])
      | cons d ds2 =>
        cases d with
        | false =>
          rw [loop_resolved] at h
          simp only [Option.some.injEq, Prod.mk.injEq] at h
          obtain ⟨-, -, hr⟩ := h
          subst hr
          constructor
          · intro _
            exact ⟨0, by simp, by simp, fun j hj => absurd hj (Nat.not_lt_zero j), by simp, by simp⟩
          · intro _; rfl
        | true =>
          rw [loop_reprompt] at h
          cases heq : confirmResolvedRecursive cs ds2 with
          | none => rw [heq] at h; exact absurd h (by simp)
          | some t =>
            obtain ⟨evs', st', r'⟩ := t
            rw [heq] at h
            simp only [Option.some.injEq, Prod.mk.injEq] at h
            obtain ⟨-, -, hr⟩ := h
            subst hr
            rw [ih ds2 evs' st' r' heq]
            constructor
            · rintro ⟨i, h1, h2, hall, hci, hdi⟩
              refine ⟨i + 1, by simpa using Nat.succ_lt_succ h1, by simpa using Nat.succ_lt_succ h2,
                fun j hj => ?_, by simpa using hci, by simpa using hdi⟩
              cases j with
              | zero => simp
              | succ k => simpa using hall k (Nat.lt_of_succ_lt_succ hj)
            · rintro ⟨i, h1, h2, hall, hci, hdi⟩
              cases i with
              | zero => simp at hdi
              | succ j =>
                refine ⟨j, by simpa using Nat.lt_of_succ_lt_succ h1,
                  by simpa using Nat.lt_of_succ_lt_succ h2, fun k hk => ?_,
                  by simpa using hci, by simpa using hdi⟩
                simpa using hall (k + 1) (Nat.succ_lt_succ hk)

/-! ### C4 -/

/-- C4: in the conflict-resolution loop, a dirty check after a
confirmation re-prompts without re-invoking cherry-pick; whenever some
round answers confirmation false or dirtiness false, the loop
terminates; it succeeds exactly when a confirmed round sees a clean
check (all earlier rounds confirmed but dirty); and with confirmation
true and a first clean check it finishes after exactly one
confirmation prompt. -/
theorem claim_C4 :
    (∀ cs ds : List Bool, confirmResolvedRecursive (true :: cs) (true :: ds) =
      match confirmResolvedRecursive cs ds with
      | none => none
      | some (evs, st, r) => some (Event.confirmPrompt :: Event.dirtyCheck :: evs, st, r)) ∧
    (∀ (cs ds : List Bool) evs st r sha, confirmResolvedRecursive cs ds = some (evs, st, r) →
      Event.cherrypickCall sha ∉ evs) ∧
    (∀ cs ds : List Bool,
      (∃ i, i < cs.length ∧ i < ds.length ∧ (cs.get? i = some false ∨ ds.get? i = some false)) →
      (confirmResolvedRecursive cs ds).isSome = true) ∧
    (∀ (cs ds : List Bool) evs st r, confirmResolvedRecursive cs ds = some (evs, st, r) →
      (r = Except.ok () ↔ ∃ i, i < cs.length ∧ i < ds.length ∧
        (∀ j, j < i → cs.get? j = some true ∧ ds.get? j = some true) ∧
        cs.get? i = some true ∧ ds.get? i = some false)) ∧
    (∀ cs ds : List Bool, confirmResolvedRecursive (true :: cs) (false :: ds) =
        some ([Event.confirmPrompt, Event.dirtyCheck], ⟨cs, ds⟩, Except.ok ()) ∧
      ([Event.confirmPrompt, Event.dirtyCheck]).count Event.confirmPrompt = 1) :=
  ⟨loop_reprompt,
   fun cs ds evs st r sha h => loop_no_cherrypick cs ds evs st r sha h,
   loop_terminates,
   loop_success_iff,
   fun cs ds => ⟨loop_resolved cs ds, by decide⟩⟩

/-- Witness for C4: a run that is dirty once and then clean terminates,
and the one-round clean run returns success. -/
theorem claim_C4_witness :
    (confirmResolvedRecursive [true, true] [true, false]).isSome = true ∧
    Event.cherrypickCall "abc1234" ∉ [Event.confirmPrompt, Event.dirtyCheck] :=
  ⟨claim_C4.2.2.1 [true, true] [true, false] ⟨1, by decide, by decide, Or.inr (by decide)⟩,
   claim_C4.2.1 [true] [false] [Event.confirmPrompt, Event.dirtyCheck] ⟨[], []⟩
     (Except.ok ()) "abc1234" (by decide)⟩

/-! ### Cherry-pick classifier lemmas -/

theorem cac_ok (cherry : String → Except JsError Unit) (sha : String) (cs ds : List Bool)
    (h : cherry sha = Except.ok ()) :
    cherrypickAndConfirm cherry sha cs ds =
      some ([Event.cherrypickCall sha], ⟨cs, ds⟩, Except.ok ()) := by
  simp [cherrypickAndConfirm, h]

theorem cac_nocmd (cherry : String → Except JsError Unit) (sha : String) (cs ds : List Bool)
    (e : JsError) (h1 : cherry sha = Except.error e) (h2 : e.cmd = none) :
    cherrypickAndConfirm cherry sha cs ds =
      some ([Event.cherrypickCall sha], ⟨cs, ds⟩, Except.error jsTypeErrorCmdUndefined) := by
  simp [cherrypickAndConfirm, h1, h2]

theorem cac_othercmd (cherry : String → Except JsError Unit) (sha : String) (cs ds : List Bool)
    (e : JsError) (cmd : String) (h1 : cherry sha = Except.error e) (h2 : e.cmd = some cmd)
    (h3 : jsIncludes cmd "git cherry-pick" = false) :
    cherrypickAndConfirm cherry sha cs ds =
      some ([Event.cherrypickCall sha], ⟨cs, ds⟩, Except.error e) := by
  simp [cherrypickAndConfirm, h1, h2, h3]

theorem cac_conflict (cherry : String → Except JsError Unit) (sha : String) (cs ds : List Bool)
    (e : JsError) (cmd : String) (h1 : cherry sha = Except.error e) (h2 : e.cmd = some cmd)
    (h3 : jsIncludes cmd "git cherry-pick" = true) :
    cherrypickAndConfirm cherry sha cs ds =
      match confirmResolvedRecursive cs ds with
      | none => none
      | some (evs, st, r) => some (Event.cherrypickCall sha :: evs, st, r) := by
  simp [cherrypickAndConfirm, h1, h2, h3]

/-! ### C3 -/

/-- C3: the claim states that any failure of the cherry-pick step other
than a cherry-pick-command conflict propagates immediately and
unchanged.  Counterexample: a failure without a `cmd` string (a plain
network error) is not propagated unchanged — the classifier replaces it
with a TypeError. -/
theorem claim_C3_counterexample :
    cherrypickAndConfirm (fun _ => Except.error networkError) "abc1234" [] [] =
      some ([Event.cherrypickCall "abc1234"], ⟨[], []⟩, Except.error jsTypeErrorCmdUndefined) ∧
    jsTypeErrorCmdUndefined ≠ networkError ∧
    networkError.cmd = none := by
  decide

/-- C3 (amended): the conflict-resolution loop is entered exactly when
the failure carries a `cmd` string containing `git cherry-pick`; a
failure whose `cmd` string does not contain it propagates immediately
and unchanged; a failure without a `cmd` string is replaced by a
TypeError rather than propagated unchanged. -/
theorem claim_C3 :
    ∀ (cherry : String → Except JsError Unit) (sha : String) (cs ds : List Bool) (e : JsError),
      cherry sha = Except.error e →
      (∀ cmd, e.cmd = some cmd → jsIncludes cmd "git cherry-pick" = false →
        cherrypickAndConfirm cherry sha cs ds =
          some ([Event.cherrypickCall sha], ⟨cs, ds⟩, Except.error e)) ∧
      (∀ cmd, e.cmd = some cmd → jsIncludes cmd "git cherry-pick" = true →
        cherrypickAndConfirm cherry sha cs ds =
          match confirmResolvedRecursive cs ds with
          | none => none
          | some (evs, st, r) => some (Event.cherrypickCall sha :: evs, st, r)) ∧
      (e.cmd = none →
        cherrypickAndConfirm cherry sha cs ds =
          some ([Event.cherrypickCall sha], ⟨cs, ds⟩, Except.error jsTypeErrorCmdUndefined)) :=
  fun cherry sha cs ds e h1 =>
    ⟨fun cmd h2 h3 => cac_othercmd cherry sha cs ds e cmd h1 h2 h3,
     fun cmd h2 h3 => cac_conflict cherry sha cs ds e cmd h1 h2 h3,
     fun h2 => cac_nocmd cherry sha cs ds e h1 h2⟩

/-- Witness for C3: a `git push` failure during the cherry-pick step
propagates unchanged and does not enter the loop. -/
theorem claim_C3_witness :
    cherrypickAndConfirm (fun _ => Except.error pushError) "abc1234" [] [] =
      some ([Event.cherrypickCall "abc1234"], ⟨[], []⟩, Except.error pushError) :=
  (claim_C3 (fun _ => Except.error pushError) "abc1234" [] [] pushError rfl).1
    "git push origin 7.x" rfl (by decide)

/-! ### C10 -/

/-- C10: if the cherry-pick step raises an error without a string `cmd`
property, the unguarded access `e.cmd.includes("git cherry-pick")`
itself raises a TypeError, so the original error is replaced rather
than propagated unchanged. -/
theorem claim_C10 :
    ∀ (cherry : String → Except JsError Unit) (sha : String) (cs ds : List Bool) (e : JsError),
      cherry sha = Except.error e → e.cmd = none →
      cherrypickAndConfirm cherry sha cs ds =
        some ([Event.cherrypickCall sha], ⟨cs, ds⟩, Except.error jsTypeErrorCmdUndefined) ∧
      jsTypeErrorCmdUndefined.name = "TypeError" ∧
      (e ≠ jsTypeErrorCmdUndefined →
        cherrypickAndConfirm cherry sha cs ds ≠
          some ([Event.cherrypickCall sha], ⟨cs, ds⟩, Except.error e)) := by
  intro cherry sha cs ds e h1 h2
  have hmain := cac_nocmd cherry sha cs ds e h1 h2
  refine ⟨hmain, rfl, fun hne heq => ?_⟩
  rw [hmain] at heq
  simp only [Option.some.injEq, Prod.mk.injEq, Except.error.injEq] at heq
  exact hne heq.2.2.symm

/-- Witness for C10 at a concrete network error. -/
theorem claim_C10_witness :
    cherrypickAndConfirm (fun _ => Except.error networkError) "def5678" [] [] =
      some ([Event.cherrypickCall "def5678"], ⟨[], []⟩, Except.error jsTypeErrorCmdUndefined) ∧
    jsTypeErrorCmdUndefined.name = "TypeError" ∧
    (networkError ≠ jsTypeErrorCmdUndefined →
      cherrypickAndConfirm (fun _ => Except.error networkError) "def5678" [] [] ≠
        some ([Event.cherrypickCall "def5678"], ⟨[], []⟩, Except.error networkError)) :=
  claim_C10 (fun _ => Except.error networkError) "def5678" [] [] networkError rfl rfl

/-! ### C8 -/

/-- C8: the claim states that every hosting-API error response is an
unexpected failure that is re-raised past the per-branch handler,
terminating the run.  Counterexample: an API error response with a
structured body is wrapped by `getError` into a `HandledError`, which
`handleErrors` reports and swallows — the run continues. -/
theorem claim_C8_counterexample :
    apiErrEx.responseData = some [("message", "Validation Failed")] ∧
    (getError apiErrEx).name = "HandledError" ∧
    handleErrors (getError apiErrEx) =
      ([Event.reportHandled (getError apiErrEx).message], Except.ok ()) ∧
    (handleErrors (getError apiErrEx)).2 ≠ Except.error (getError apiErrEx) := by
  decide

/-- C8 (amended): a hosting-API error response with a structured error
body is converted into a `HandledError` whose message carries the
request url and the body, and is treated by the per-branch handler as an
expected failure (reported, not re-raised, so the run continues); an API
failure without a structured response body propagates unchanged and —
unless it already is a `HandledError` — is reported and re-raised,
terminating the run. -/
theorem claim_C8 :
    ∀ e : GithubApiError,
      (∀ data, e.responseData = some data →
        getError e = HandledError (jsonStringifyWithUrl data e.configUrl) ∧
        (∃ pre post : String, (getError e).message = pre ++ (e.configUrl ++ post)) ∧
        handleErrors (getError e) =
          ([Event.reportHandled (getError e).message], Except.ok ())) ∧
      (e.responseData = none →
        getError e = e.err ∧
        (e.err.name ≠ "HandledError" →
          handleErrors (getError e) =
            ([Event.reportUnexpected e.err.name e.err.message], Except.error e.err))) := by
  intro e
  constructor
  · intro data hd
    have hg : getError e = HandledError (jsonStringifyWithUrl data e.configUrl) := by
      simp [getError, hd]
    refine ⟨hg, ?_, ?_⟩
    · refine ⟨"\x7b\n" ++
        String.join (data.map fun kv => "    \"" ++ kv.1 ++ "\": \"" ++ kv.2 ++ "\",\n") ++
        "    \"axiosUrl\": \"", "\"\n\x7d", ?_⟩
      rw [hg]
      show jsonStringifyWithUrl data e.configUrl = _
      unfold jsonStringifyWithUrl
      simp [String.append_assoc]
    · rw [hg]
      simp [handleErrors, HandledError]
  · intro hd
    have hg : getError e = e.err := by simp [getError, hd]
    refine ⟨hg, fun hn => ?_⟩
    rw [hg]
    simp [handleErrors, hn]

/-- Witness for C8 at a concrete API error with a structured body and a
concrete API failure without one. -/
theorem claim_C8_witness :
    (getError apiErrEx =
        HandledError (jsonStringifyWithUrl [("message", "Validation Failed")] apiErrEx.configUrl) ∧
      (∃ pre post : String, (getError apiErrEx).message = pre ++ (apiErrEx.configUrl ++ post)) ∧
      handleErrors (getError apiErrEx) =
        ([Event.reportHandled (getError apiErrEx).message], Except.ok ())) ∧
    (getError apiErrNoBody = apiErrNoBody.err ∧
      (apiErrNoBody.err.name ≠ "HandledError" →
        handleErrors (getError apiErrNoBody) =
          ([Event.reportUnexpected apiErrNoBody.err.name apiErrNoBody.err.message],
            Except.error apiErrNoBody.err))) :=
  ⟨(claim_C8 apiErrEx).1 [("message", "Validation Failed")] rfl,
   (claim_C8 apiErrNoBody).2 rfl⟩

/-! ### Trace-shape lemmas for the branch pipeline -/

theorem cherryShas_append (a b : List Event) :
    cherryShas (a ++ b) = cherryShas a ++ cherryShas b :=
  List.filterMap_append a b _

theorem confirmDirty_trace (evs : List Event)
    (hall : ∀ e ∈ evs, e = Event.confirmPrompt ∨ e = Event.dirtyCheck) :
    cherryShas evs = [] ∧ ∀ e ∈ evs, isPushOrPREvent e = false := by
  induction evs with
  | nil => exact ⟨rfl, fun e he => absurd he (List.not_mem_nil e)⟩
  | cons a as ih =>
    have hrest := ih fun e he => hall e (List.mem_cons_of_mem a he)
    rcases hall a (List.mem_cons_self a as) with rfl | rfl
    · refine ⟨?_, ?_⟩
      · show cherryShas (Event.confirmPrompt :: as) = []
        have : cherryShas (Event.confirmPrompt :: as) = cherryShas as := rfl
        rw [this, hrest.1]
      · intro e he
        rcases List.mem_cons.mp he with rfl | hm
        · rfl
        · exact hrest.2 e hm
    · refine ⟨?_, ?_⟩
      · show cherryShas (Event.dirtyCheck :: as) = []
        have : cherryShas (Event.dirtyCheck :: as) = cherryShas as := rfl
        rw [this, hrest.1]
      · intro e he
        rcases List.mem_cons.mp he with rfl | hm
        · rfl
        · exact hrest.2 e hm

theorem cac_shape (cherry : String → Except JsError Unit) (sha : String) (cs ds : List Bool)
    (evs : List Event) (st : PromptState) (r : Except JsError Unit)
    (h : cherrypickAndConfirm cherry sha cs ds = some (evs, st, r)) :
    cherryShas evs = [sha] ∧ ∀ e ∈ evs, isPushOrPREvent e = false := by
  have single : ∀ st2 r2, some ([Event.cherrypickCall sha], st2, r2) = some (evs, st, r) →
      cherryShas evs = [sha] ∧ ∀ e ∈ evs, isPushOrPREvent e = false := by
    intro st2 r2 hh
    simp only [Option.some.injEq, Prod.mk.injEq] at hh
    obtain ⟨he, -, -⟩ := hh
    subst he
    refine ⟨rfl, fun e he => ?_⟩
    simp only [List.mem_singleton] at he
    subst he
    rfl
  cases hc : cherry sha with
  | ok u =>
    cases u
    rw [cac_ok cherry sha cs ds hc] at h
    exact single _ _ h
  | error e' =>
    cases hcmd : e'.cmd with
    | none =>
      rw [cac_nocmd cherry sha cs ds e' hc hcmd] at h
      exact single _ _ h
    | some cmd =>
      cases hinc : jsIncludes cmd "git cherry-pick" with
      | false =>
        rw [cac_othercmd cherry sha cs ds e' cmd hc hcmd hinc] at h
        exact single _ _ h
      | true =>
        rw [cac_conflict cherry sha cs ds e' cmd hc hcmd hinc] at h
        cases heq : confirmResolvedRecursive cs ds with
        | none => rw [heq] at h; exact absurd h (by simp)
        | some t =>
          obtain ⟨evs', st', r'⟩ := t
          rw [heq] at h
          simp only [Option.some.injEq, Prod.mk.injEq] at h
          obtain ⟨he, -, -⟩ := h
          subst he
          have hloop := confirmDirty_trace evs' (loop_events cs ds evs' st' r' heq)
          constructor
          · have : cherryShas (Event.cherrypickCall sha :: evs') =
                sha :: cherryShas evs' := rfl
            rw [this, hloop.1]
          · intro e he
            rcases List.mem_cons.mp he with rfl | hm
            · rfl
            · exact hloop.2 e hm

theorem seq_cons (env : PipelineEnv) (c : Commit) (rest : List Commit) (cs ds : List Bool) :
    sequentiallyCherrypick env (c :: rest) cs ds =
      stepThen (cherrypickAndConfirm env.cherry c.sha cs ds) fun _ st =>
        sequentiallyCherrypick env rest st.confirms st.dirties := rfl

theorem seq_shape (env : PipelineEnv) : ∀ (commits : List Commit) (cs ds : List Bool) evs st r,
    sequentiallyCherrypick env commits cs ds = some (evs, st, r) →
    (∃ k, k ≤ commits.length ∧ cherryShas evs = (commits.map Commit.sha).take k ∧
      (r = Except.ok () → k = commits.length)) ∧
    (∀ e ∈ evs, isPushOrPREvent e = false) := by
  intro commits
  induction commits with
  | nil =>
    intro cs ds evs st r h
    simp only [sequentiallyCherrypick, Option.some.injEq, Prod.mk.injEq] at h
    obtain ⟨he, -, -⟩ := h
    subst he
    exact ⟨⟨0, Nat.le_refl 0, rfl, fun _ => rfl⟩, fun e he => absurd he (List.not_mem_nil e)⟩
  | cons c rest ih =>
    intro cs ds evs st r h
    rw [seq_cons] at h
    cases hcac : cherrypickAndConfirm env.cherry c.sha cs ds with
    | none =>
      simp only [stepThen, hcac] at h
      exact absurd h (by simp)
    | some t =>
      obtain ⟨evs1, st1, r1⟩ := t
      obtain ⟨hsha1, hnp1⟩ := cac_shape env.cherry c.sha cs ds evs1 st1 r1 hcac
      cases r1 with
      | error e1 =>
        simp only [stepThen, hcac, Option.some.injEq, Prod.mk.injEq] at h
        obtain ⟨he, -, hr⟩ := h
        subst he
        refine ⟨⟨1, by simp, ?_, ?_⟩, hnp1⟩
        · rw [hsha1]; rfl
        · intro hok; rw [← hr] at hok; exact absurd hok (by simp)
      | ok u =>
        cases u
        simp only [stepThen, hcac] at h
        cases hrec : sequentiallyCherrypick env rest st1.confirms st1.dirties with
        | none => rw [hrec] at h; exact absurd h (by simp)
        | some t2 =>
          obtain ⟨evs2, st2, r2⟩ := t2
          rw [hrec] at h
          simp only [Option.some.injEq, Prod.mk.injEq] at h
          obtain ⟨he, -, hr⟩ := h
          subst he
          obtain ⟨⟨k, hk, hsha2, hfull⟩, hnp2⟩ :=
            ih st1.confirms st1.dirties evs2 st2 r2 hrec
          refine ⟨⟨k + 1, Nat.succ_le_succ hk, ?_, ?_⟩, ?_⟩
          · rw [cherryShas_append, hsha1, hsha2]
            rfl
          · intro hok
            rw [← hr] at hok
            rw [hfull hok]
            rfl
          · intro e he
            rcases List.mem_append.mp he with hm | hm
            · exact hnp1 e hm
            · exact hnp2 e hm

theorem stepThen_ok {α β : Type} (r : StepResult α) (k : α → PromptState → StepResult β)
    (evs : List Event) (st : PromptState) (b : β)
    (h : stepThen r k = some (evs, st, Except.ok b)) :
    ∃ evs1 st1 a evs2, r = some (evs1, st1, Except.ok a) ∧
      k a st1 = some (evs2, st, Except.ok b) ∧ evs = evs1 ++ evs2 := by
  cases hr : r with
  | none =>
    rw [hr] at h
    simp only [stepThen] at h
    exact absurd h (by simp)
  | some t =>
    obtain ⟨evs1, st1, r1⟩ := t
    rw [hr] at h
    cases r1 with
    | error e =>
      simp only [stepThen] at h
      exact absurd h (by simp)
    | ok a =>
      simp only [stepThen] at h
      cases hk : k a st1 with
      | none => rw [hk] at h; exact absurd h (by simp)
      | some t2 =>
        obtain ⟨evs2, st2, r2⟩ := t2
        rw [hk] at h
        simp only [Option.some.injEq, Prod.mk.injEq] at h
        obtain ⟨he, hst, hr2⟩ := h
        subst hst
        cases r2 with
        | error e2 => exact absurd hr2 (by simp)
        | ok b2 =>
          simp only [Except.ok.injEq] at hr2
          subst hr2
          exact ⟨evs1, st1, a, evs2, rfl, hk, he.symm⟩

theorem dbv_cherry_fail (env : PipelineEnv) (commits : List Commit) (baseBranch username : String)
    (labels : List String) (cs ds : List Bool) (evs2 : List Event) (st2 : PromptState) (e : JsError)
    (hr : env.resetResult = Except.ok ()) (hc : env.checkoutResult = Except.ok ())
    (hs : sequentiallyCherrypick env commits cs ds = some (evs2, st2, Except.error e)) :
    doBackportVersion env commits baseBranch username labels cs ds =
      some (Event.logBackporting (String.intercalate ", " (commits.map getReferenceLong)) baseBranch ::
        Event.resetBranch ::
        Event.createAndCheckoutBranch baseBranch (getFeatureBranchName baseBranch commits) :: evs2,
        st2, Except.error e) := by
  unfold doBackportVersion
  simp only [stepThen, hr, hc]
  have hs2 : sequentiallyCherrypick env commits
      (PromptState.mk cs ds).confirms (PromptState.mk cs ds).dirties =
      some (evs2, st2, Except.error e) := hs
  simp only [hs2, List.singleton_append, List.cons_append, List.nil_append]

theorem dbv_success_shas (env : PipelineEnv) (commits : List Commit) (baseBranch username : String)
    (labels : List String) (cs ds : List Bool) (evs : List Event) (st : PromptState)
    (pr : PullRequest)
    (h : doBackportVersion env commits baseBranch username labels cs ds =
      some (evs, st, Except.ok pr)) :
    cherryShas evs = commits.map Commit.sha := by
  unfold doBackportVersion at h
  obtain ⟨evs1, st1, u1, evsA, h1, h2, hE1⟩ := stepThen_ok _ _ _ _ _ h
  simp only [Option.some.injEq, Prod.mk.injEq] at h1
  obtain ⟨h1e, h1st, -⟩ := h1
  subst h1e
  subst h1st
  obtain ⟨evs2, st2, u2, evsB, h3, h4, hE2⟩ := stepThen_ok _ _ _ _ _ h2
  simp only [Option.some.injEq, Prod.mk.injEq] at h3
  obtain ⟨h3e, h3st, -⟩ := h3
  subst h3e
  subst h3st
  obtain ⟨evs3, st3, u3, evsC, h5, h6, hE3⟩ := stepThen_ok _ _ _ _ _ h4
  simp only [Option.some.injEq, Prod.mk.injEq] at h5
  obtain ⟨h5e, h5st, -⟩ := h5
  subst h5e
  subst h5st
  obtain ⟨evsS, stS, uS, evsD, h7, h8, hE4⟩ := stepThen_ok _ _ _ _ _ h6
  obtain ⟨evs5, st5, u5, evsE, h9, h10, hE5⟩ := stepThen_ok _ _ _ _ _ h8
  simp only [Option.some.injEq, Prod.mk.injEq] at h9
  obtain ⟨h9e, h9st, -⟩ := h9
  subst h9e
  subst h9st
  obtain ⟨evs6, st6, pr6, evsF, h11, h12, hE6⟩ := stepThen_ok _ _ _ _ _ h10
  simp only [Option.some.injEq, Prod.mk.injEq] at h11
  obtain ⟨h11e, h11st, -⟩ := h11
  subst h11e
  subst h11st
  have hF : cherryShas evsF = [] := by
    by_cases hl : labels.length > 0
    · rw [if_pos hl] at h12
      obtain ⟨evs7, st7, u7, evsG, h13, h14, hE7⟩ := stepThen_ok _ _ _ _ _ h12
      simp only [Option.some.injEq, Prod.mk.injEq] at h13 h14
      obtain ⟨h13e, -, -⟩ := h13
      obtain ⟨h14e, -, -⟩ := h14
      subst h13e
      subst h14e
      subst hE7
      rfl
    · rw [if_neg hl] at h12
      simp only [Option.some.injEq, Prod.mk.injEq] at h12
      obtain ⟨h12e, -, -⟩ := h12
      subst h12e
      rfl
  cases uS
  obtain ⟨⟨k, hk, hshaS, hfull⟩, -⟩ := seq_shape env commits cs ds evsS stS (Except.ok ()) h7
  have hS : cherryShas evsS = commits.map Commit.sha := by
    have hlen : commits.length = (commits.map Commit.sha).length := (List.length_map _ _).symm
    rw [hshaS, hfull rfl, hlen, List.take_length]
  subst hE1
  subst hE2
  subst hE3
  subst hE4
  subst hE5
  subst hE6
  simp only [cherryShas_append]
  have c1 : ∀ s b, cherryShas [Event.logBackporting s b] = [] := fun _ _ => rfl
  have c2 : cherryShas [Event.resetBranch] = [] := rfl
  have c3 : ∀ b f, cherryShas [Event.createAndCheckoutBranch b f] = [] := fun _ _ => rfl
  have c4 : ∀ u f, cherryShas [Event.pushBranch u f] = [] := fun _ _ => rfl
  have c5 : ∀ p, cherryShas [Event.createPullRequestCall p] = [] := fun _ => rfl
  rw [c1, c2, c3, c4, c5, hF, hS]
  simp

theorem dbvs_handled (env : String → PipelineEnv) (commits : List Commit) (b : String)
    (rest : List String) (username : String) (labels : List String) (cs ds : List Bool)
    (evs : List Event) (st : PromptState) (e : JsError)
    (h : doBackportVersion (env b) commits b username labels cs ds = some (evs, st, Except.error e))
    (hn : e.name = "HandledError") :
    doBackportVersions env commits (b :: rest) username labels cs ds =
      match doBackportVersions env commits rest username labels st.confirms st.dirties with
      | none => none
      | some (evs2, st2, res) => some (evs ++ [Event.reportHandled e.message] ++ evs2, st2, res) := by
  simp only [doBackportVersions, h, handleErrors, hn, if_true]

theorem dbvs_unhandled (env : String → PipelineEnv) (commits : List Commit) (b : String)
    (rest : List String) (username : String) (labels : List String) (cs ds : List Bool)
    (evs : List Event) (st : PromptState) (e : JsError)
    (h : doBackportVersion (env b) commits b username labels cs ds = some (evs, st, Except.error e))
    (hn : ¬ e.name = "HandledError") :
    doBackportVersions env commits (b :: rest) username labels cs ds =
      some (evs ++ [Event.reportUnexpected e.name e.message], st, Except.error e) := by
  simp only [doBackportVersions, h, handleErrors, if_neg hn]

/-! ### C9 -/

/-- C9: within one branch pipeline the commits are cherry-picked
strictly in list order (the cherry-pick calls of any run are a take-k
front segment of the commit shas, the full list on success); a commit
failure ends the branch with exactly the trace up to that failure, so
the remaining commits, the push and the pull-request creation are never
reached. -/
theorem claim_C9 :
    (∀ (env : PipelineEnv) (commits : List Commit) (cs ds : List Bool) evs st r,
      sequentiallyCherrypick env commits cs ds = some (evs, st, r) →
      (∃ k, k ≤ commits.length ∧ cherryShas evs = (commits.map Commit.sha).take k ∧
        (r = Except.ok () → k = commits.length)) ∧
      (∀ e ∈ evs, isPushOrPREvent e = false)) ∧
    (∀ (env : PipelineEnv) (commits : List Commit) (baseBranch username : String)
      (labels : List String) (cs ds : List Bool) (evs2 : List Event) (st2 : PromptState)
      (e : JsError),
      env.resetResult = Except.ok () → env.checkoutResult = Except.ok () →
      sequentiallyCherrypick env commits cs ds = some (evs2, st2, Except.error e) →
      doBackportVersion env commits baseBranch username labels cs ds =
        some (Event.logBackporting (String.intercalate ", " (commits.map getReferenceLong)) baseBranch ::
          Event.resetBranch ::
          Event.createAndCheckoutBranch baseBranch (getFeatureBranchName baseBranch commits) :: evs2,
          st2, Except.error e) ∧
      (∀ ev ∈ (Event.logBackporting (String.intercalate ", " (commits.map getReferenceLong)) baseBranch ::
          Event.resetBranch ::
          Event.createAndCheckoutBranch baseBranch (getFeatureBranchName baseBranch commits) :: evs2),
        isPushOrPREvent ev = false)) ∧
    (∀ (env : PipelineEnv) (commits : List Commit) (baseBranch username : String)
      (labels : List String) (cs ds : List Bool) (evs : List Event) (st : PromptState)
      (pr : PullRequest),
      doBackportVersion env commits baseBranch username labels cs ds =
        some (evs, st, Except.ok pr) →
      cherryShas evs = commits.map Commit.sha) := by
  refine ⟨seq_shape, ?_, dbv_success_shas⟩
  intro env commits baseBranch username labels cs ds evs2 st2 e hr hc hs
  refine ⟨dbv_cherry_fail env commits baseBranch username labels cs ds evs2 st2 e hr hc hs, ?_⟩
  intro ev hev
  obtain ⟨-, hnp⟩ := seq_shape env commits cs ds evs2 st2 (Except.error e) hs
  rcases List.mem_cons.mp hev with rfl | hev2
  · rfl
  rcases List.mem_cons.mp hev2 with rfl | hev3
  · rfl
  rcases List.mem_cons.mp hev3 with rfl | hev4
  · rfl
  · exact hnp ev hev4

/-- Witness for C9: the conflicting cherry-pick on branch `6.x` with a
denied confirmation aborts the branch before push and PR creation. -/
theorem claim_C9_witness :
    doBackportVersion (exEnv "6.x") [exCommit] "6.x" "sqren" [] [false] [] =
      some (Event.logBackporting (String.intercalate ", " ([exCommit].map getReferenceLong)) "6.x" ::
        Event.resetBranch ::
        Event.createAndCheckoutBranch "6.x" (getFeatureBranchName "6.x" [exCommit]) ::
        [Event.cherrypickCall "abc1234def5678", Event.confirmPrompt],
        ⟨[], []⟩, Except.error (HandledError "Application was aborted.")) ∧
    (∀ ev ∈ (Event.logBackporting (String.intercalate ", " ([exCommit].map getReferenceLong)) "6.x" ::
        Event.resetBranch ::
        Event.createAndCheckoutBranch "6.x" (getFeatureBranchName "6.x" [exCommit]) ::
        [Event.cherrypickCall "abc1234def5678", Event.confirmPrompt]),
      isPushOrPREvent ev = false) :=
  claim_C9.2.1 (exEnv "6.x") [exCommit] "6.x" "sqren" [] [false] []
    [Event.cherrypickCall "abc1234def5678", Event.confirmPrompt] ⟨[], []⟩
    (HandledError "Application was aborted.") (by decide) (by decide) (by decide)

/-! ### C1 -/

/-- C1: the coordinator processes the target branches in order; a branch
whose pipeline fails with a recognized (`HandledError`) failure is
reported and the remaining branches still run, their results returned;
a branch failing with an unrecognized error is reported, the error is
re-raised and the remaining branches are skipped. -/
theorem claim_C1 :
    ∀ (env : String → PipelineEnv) (commits : List Commit) (username : String)
      (labels : List String) (b : String) (rest : List String) (cs ds : List Bool)
      (evs : List Event) (st : PromptState) (e : JsError),
      doBackportVersion (env b) commits b username labels cs ds = some (evs, st, Except.error e) →
      (e.name = "HandledError" →
        doBackportVersions env commits (b :: rest) username labels cs ds =
          match doBackportVersions env commits rest username labels st.confirms st.dirties with
          | none => none
          | some (evs2, st2, res) =>
            some (evs ++ [Event.reportHandled e.message] ++ evs2, st2, res)) ∧
      (¬ e.name = "HandledError" →
        doBackportVersions env commits (b :: rest) username labels cs ds =
          some (evs ++ [Event.reportUnexpected e.name e.message], st, Except.error e)) :=
  fun env commits username labels b rest cs ds evs st e h =>
    ⟨fun hn => dbvs_handled env commits b rest username labels cs ds evs st e h hn,
     fun hn => dbvs_unhandled env commits b rest username labels cs ds evs st e h hn⟩

/-- Witness for C1: a handled abort on `6.x` is reported and the run
continues with the remaining branch; an unrecognized TypeError on
`5.x` is reported and re-raised, skipping the remaining branch. -/
theorem claim_C1_witness :
    (doBackportVersions exEnv [exCommit] ["6.x", "7.x"] "sqren" [] [false] [] =
      match doBackportVersions exEnv [exCommit] ["7.x"] "sqren" [] [] [] with
      | none => none
      | some (evs2, st2, res) =>
        some (exTraceA ++ [Event.reportHandled "Application was aborted."] ++ evs2, st2, res)) ∧
    (doBackportVersions exEnvNet [exCommit] ["5.x", "7.x"] "sqren" [] [] [] =
      some ([Event.logBackporting "#10" "5.x", Event.resetBranch,
          Event.createAndCheckoutBranch "5.x" "backport/5.x/pr-10",
          Event.cherrypickCall "abc1234def5678"] ++
        [Event.reportUnexpected "TypeError" "Cannot read property includes of undefined"],
        ⟨[], []⟩, Except.error jsTypeErrorCmdUndefined)) :=
  ⟨(claim_C1 exEnv [exCommit] "sqren" [] "6.x" ["7.x"] [false] [] exTraceA ⟨[], []⟩
      (HandledError "Application was aborted.") (by decide)).1 (by decide),
   (claim_C1 exEnvNet [exCommit] "sqren" [] "5.x" ["7.x"] [] []
      [Event.logBackporting "#10" "5.x", Event.resetBranch,
        Event.createAndCheckoutBranch "5.x" "backport/5.x/pr-10",
        Event.cherrypickCall "abc1234def5678"] ⟨[], []⟩
      jsTypeErrorCmdUndefined (by decide)).2 (by decide)⟩

/-! ### C2 -/

/-- C2: the claim states that a denied conflict confirmation aborts the
whole backport and that no further branches are attempted.
Counterexample: in the concrete two-branch run the operator denies the
confirmation on `6.x`, yet the run proceeds to `7.x`, pushes its feature
branch, opens its pull request, and finishes successfully. -/
theorem claim_C2_counterexample :
    doBackportVersions exEnv [exCommit] ["6.x", "7.x"] "sqren" [] [false] [] =
      some (exTrace, ⟨[], []⟩, Except.ok ()) ∧
    Event.confirmPrompt ∈ exTrace ∧
    Event.reportHandled "Application was aborted." ∈ exTrace ∧
    Event.pushBranch "sqren" "backport/7.x/pr-10" ∈ exTrace ∧
    Event.logView "https://github.com/elastic/kibana/pull/200" ∈ exTrace := by
  decide

/-- C2 (amended): when the operator denies the confirmation, the
current branch is aborted with the user-facing (non-crash) failure
`HandledError "Application was aborted."`; no further commits of that
branch are attempted; and the coordinator — treating the abort as a
handled failure — leaves the already-completed branches untouched and
still proceeds to the remaining target branches. -/
theorem claim_C2 :
    (∀ cs ds : List Bool, confirmResolvedRecursive (false :: cs) ds =
      some ([Event.confirmPrompt], ⟨cs, ds⟩, Except.error (HandledError "Application was aborted."))) ∧
    ((HandledError "Application was aborted.").name = "HandledError" ∧
      handleErrors (HandledError "Application was aborted.") =
        ([Event.reportHandled "Application was aborted."], Except.ok ())) ∧
    (∀ (env : PipelineEnv) (c : Commit) (rest : List Commit) (cs ds : List Bool)
      (evs : List Event) (st : PromptState) (e : JsError),
      cherrypickAndConfirm env.cherry c.sha cs ds = some (evs, st, Except.error e) →
      sequentiallyCherrypick env (c :: rest) cs ds = some (evs, st, Except.error e)) ∧
    (∀ (env : String → PipelineEnv) (commits : List Commit) (b : String) (rest : List String)
      (username : String) (labels : List String) (cs ds : List Bool)
      (evs : List Event) (st : PromptState) (m : String),
      doBackportVersion (env b) commits b username labels cs ds =
        some (evs, st, Except.error (HandledError m)) →
      doBackportVersions env commits (b :: rest) username labels cs ds =
        match doBackportVersions env commits rest username labels st.confirms st.dirties with
        | none => none
        | some (evs2, st2, res) => some (evs ++ [Event.reportHandled m] ++ evs2, st2, res)) := by
  refine ⟨loop_abort, by decide, ?_, ?_⟩
  · intro env c rest cs ds evs st e h
    rw [seq_cons]
    simp only [stepThen, h]
  · intro env commits b rest username labels cs ds evs st m h
    exact dbvs_handled env commits b rest username labels cs ds evs st (HandledError m) h rfl

/-- Witness for C2: the concrete `6.x` abort stops the branch at the
denied confirmation and the coordinator continues with `7.x`. -/
theorem claim_C2_witness :
    sequentiallyCherrypick (exEnv "6.x") [exCommit] [false] [] =
      some ([Event.cherrypickCall "abc1234def5678", Event.confirmPrompt], ⟨[], []⟩,
        Except.error (HandledError "Application was aborted.")) ∧
    doBackportVersions exEnv [exCommit] ["6.x", "7.x"] "sqren" [] [false] [] =
      match doBackportVersions exEnv [exCommit] ["7.x"] "sqren" [] [] [] with
      | none => none
      | some (evs2, st2, res) =>
        some (exTraceA ++ [Event.reportHandled "Application was aborted."] ++ evs2, st2, res) :=
  ⟨claim_C2.2.2.1 (exEnv "6.x") exCommit [] [false] []
      [Event.cherrypickCall "abc1234def5678", Event.confirmPrompt] ⟨[], []⟩
      (HandledError "Application was aborted.") (by decide),
   claim_C2.2.2.2 exEnv [exCommit] "6.x" ["7.x"] "sqren" [] [false] [] exTraceA ⟨[], []⟩
      "Application was aborted." (by decide)⟩
